import Mathlib

/-!
Verification of the easyurls pattern-expansion engine (src/easyurls.py).

The Python module defines a class URLPatternGenerator holding a mutable
dict of named regex fragments, and a method regex that scans a template
for placeholder tokens of the shape LANGLE name maybe-pattern RANGLE
(the compiled scanner is VARIABLE), substitutes each with a named capture
group, and then applies anchor, trailing-slash and terminator
post-processing.

The embedding below is a direct translation:
- Python dicts become association lists (PatTable) with last-write-wins
  update (dictSet) and defaulted lookup (dictFind and Option.getD),
- object identity and aliasing of the patterns dict is made explicit by a
  Store of tables indexed by Nat references; each URLPatternGenerator
  value holds a reference patternsRef into the Store,
- the compiled regex VARIABLE and the behaviour of re.sub on it are
  realised by the executable scanner tryMatch and the single left-to-right
  pass substAux (fuel-indexed to make the recursion structural; the fuel
  is always the length of the remaining input, see substList),
- the method regex becomes regexCore (explicit table and configuration)
  and regexOp (reads the table out of the Store; the Python method never
  writes the Store, and regexOp returns it unchanged accordingly).
-/

/-- A Python dict from pattern names to regex fragments, as an
association list with unique keys maintained by dictSet. -/
abbrev PatTable := List (String × String)

/-- Defaulted dict lookup: the Option result of finding a key. -/
def dictFind : PatTable → String → Option String
  | [], _ => none
  | (k', v') :: rest, k => if k' = k then some v' else dictFind rest k

/-- Python d.get(k, dflt): lookup with a default, never fails. -/
def dictGet (t : PatTable) (k dflt : String) : String :=
  (dictFind t k).getD dflt

/-- Python d[k] = v: insert or overwrite the binding for k. -/
def dictSet : PatTable → String → String → PatTable
  | [], k, v => [(k, v)]
  | (k', v') :: rest, k, v =>
      if k' = k then (k, v) :: rest else (k', v') :: dictSet rest k v

/-- The module-level PATTERNS dict of default fragments. -/
def PATTERNS : PatTable :=
  [ ("day",   "\\d\x7b1,2\x7d"),
    ("id",    "\\d+"),
    ("month", "\\d\x7b1,2\x7d"),
    ("slug",  "[\\w-]+"),
    ("tag",   "\\w+"),
    ("year",  "\\d\x7b4\x7d"),
    ("mon",   "[a-z]\x7b3\x7d"),
    ("n",     "\\d+") ]

/-- Python 2 regex word character for a byte string: letters, digits and
the underscore. -/
def isWordChar (c : Char) : Bool := c.isAlpha || c.isDigit || c = '_'

/-- One optional leading colon is consumed by the colon-question part of
the VARIABLE regex when at least one further pattern character follows;
a lone colon is kept (the engine backtracks the optional colon so that
the one-or-more pattern group is non-empty). -/
def stripColon : List Char → List Char
  | ':' :: c :: cs => c :: cs
  | l => l

/-- Matching of the VARIABLE regex at the position just after a LANGLE:
the name is the maximal non-empty run of word characters; then either a
RANGLE immediately (no pattern portion), or a non-empty run of
non-RANGLE characters (the pattern portion, losing one leading colon)
followed by a RANGLE.  Returns the name, the optional pattern, and the
input remaining after the closing RANGLE. -/
def tryAfterLt (cs : List Char) : Option (String × Option String × List Char) :=
  if cs.takeWhile isWordChar = [] then none
  else
    match cs.dropWhile isWordChar with
    | [] => none
    | a :: rest =>
      if a = '>' then some (String.mk (cs.takeWhile isWordChar), none, rest)
      else
        match (a :: rest).dropWhile (fun x => x != '>') with
        | [] => none
        | _ :: rest' =>
            some (String.mk (cs.takeWhile isWordChar),
                  some (String.mk (stripColon ((a :: rest).takeWhile (fun x => x != '>')))),
                  rest')

/-- Matching of the VARIABLE regex at the head of the input: a LANGLE
followed by a tryAfterLt match. -/
def tryMatch : List Char → Option (String × Option String × List Char)
  | [] => none
  | c :: cs => if c = '<' then tryAfterLt cs else none

/-- The expander instance: the configuration fields of
URLPatternGenerator.__init__, with the mutable patterns dict represented
by a reference into a Store. -/
structure URLPatternGenerator where
  patternsRef : Nat
  default : String
  append_slash : Bool
  anchor : Bool
  terminate : Bool
deriving DecidableEq

/-- The heap of patterns dicts: cell r of the store is the dict object
referenced by r. -/
abbrev Store := List PatTable

/-- Reading a cell of the store (an absent cell reads as empty). -/
def Store.read (s : Store) (r : Nat) : PatTable := s.getD r []

/-- Overwriting a cell of the store. -/
def Store.write (s : Store) (r : Nat) (t : PatTable) : Store := s.set r t

/-- URLPatternGenerator.__init__: the Python `patterns or
dict(PATTERNS.items())` keeps a caller-supplied dict object (by
reference) when it is truthy, i.e. non-empty; a missing argument or an
empty dict yields a freshly allocated copy of PATTERNS. -/
def URLPatternGenerator.init (s : Store) (patterns : Option Nat) (dflt : String)
    (asl an te : Bool) : Store × URLPatternGenerator :=
  match patterns with
  | some r =>
      if Store.read s r = [] then
        (s ++ [PATTERNS], ⟨s.length, dflt, asl, an, te⟩)
      else
        (s, ⟨r, dflt, asl, an, te⟩)
  | none => (s ++ [PATTERNS], ⟨s.length, dflt, asl, an, te⟩)

/-- URLPatternGenerator.add (also installed as setitem): insert or
overwrite one fragment in the patterns dict of this instance. -/
def URLPatternGenerator.add (s : Store) (g : URLPatternGenerator)
    (nm pattern : String) : Store :=
  Store.write s g.patternsRef (dictSet (Store.read s g.patternsRef) nm pattern)

/-- URLPatternGenerator._replace, with the instance fields passed
explicitly (the url keyword argument bound by functools.partial is
unused by the Python method body and is omitted).  The Python test `if
pattern:` is a truthiness test: None and the empty string both take the
else branch. -/
def URLPatternGenerator._replace (patterns : PatTable) (dflt : String)
    (nm : String) (pattern : Option String) : String :=
  let regexp :=
    match pattern with
    | some p => if p = "" then dictGet patterns nm dflt else dictGet patterns p p
    | none => dictGet patterns nm dflt
  "(?P<" ++ nm ++ ">" ++ regexp ++ ")"

/-- One left-to-right pass of re.sub with the VARIABLE regex: at each
position, if the regex matches, emit the replacement and continue after
the match, otherwise copy one character.  The fuel argument only makes
the recursion structural; substList always supplies the input length,
which the lemma substAux_norm shows is enough. -/
def substAux (patterns : PatTable) (dflt : String) : Nat → List Char → List Char
  | _, [] => []
  | 0, l => l
  | Nat.succ fuel, c :: rest =>
      match tryMatch (c :: rest) with
      | some (nm, pat, rest') =>
          (URLPatternGenerator._replace patterns dflt nm pat).toList ++
            substAux patterns dflt fuel rest'
      | none => c :: substAux patterns dflt fuel rest

/-- VARIABLE.sub over a whole character list. -/
def substList (patterns : PatTable) (dflt : String) (l : List Char) : List Char :=
  substAux patterns dflt l.length l

/-- Whether the VARIABLE regex matches anywhere in the input. -/
def hasToken : List Char → Bool
  | [] => false
  | c :: rest =>
      match tryMatch (c :: rest) with
      | some _ => true
      | none => hasToken rest

/-- The keyword arguments accepted by a call to regex.  The method reads
the keys anchor, append_slash and terminate with kw.get; a default key,
if supplied, is simply never read. -/
structure Kw where
  anchor : Option Bool
  append_slash : Option Bool
  terminate : Option Bool
  default : Option String
deriving DecidableEq

/-- A call with no keyword arguments. -/
def kw0 : Kw := ⟨none, none, none, none⟩

/-- Python r[-1:]: the slice holding the last character, empty when r is
empty. -/
def lastSlice (r : List Char) : List Char := r.drop (r.length - 1)

/-- URLPatternGenerator.regex with the instance table and
configuration passed explicitly: substitute every token, then prepend
the caret unless already present, append the slash when the template is
truthy and the string ends in neither dollar nor slash, and append the
dollar unless already present.  Each option is read from the keyword
arguments with the instance value as fallback. -/
def URLPatternGenerator.regexCore (patterns : PatTable) (dflt : String)
    (anchor append_slash terminate : Bool) (url : String) (kw : Kw) : String :=
  let r0 := substList patterns dflt url.toList
  let r1 := if (kw.anchor.getD anchor) && !(r0.take 1 == ['^']) then '^' :: r0 else r0
  let r2 := if (url != "") && (kw.append_slash.getD append_slash) &&
               !(lastSlice r1 == ['$']) && !(lastSlice r1 == ['/'])
            then r1 ++ ['/'] else r1
  let r3 := if (kw.terminate.getD terminate) && !(lastSlice r2 == ['$'])
            then r2 ++ ['$'] else r2
  String.mk r3

/-- URLPatternGenerator.regex as an operation on the store: the method
only reads the patterns dict and returns the store unchanged. -/
def URLPatternGenerator.regexOp (s : Store) (g : URLPatternGenerator)
    (url : String) (kw : Kw) : Store × String :=
  (s, URLPatternGenerator.regexCore (Store.read s g.patternsRef) g.default
        g.anchor g.append_slash g.terminate url kw)

/-- The module-level instance easyurl = URLPatternGenerator(), created
in the empty store. -/
def easyurlInit : Store × URLPatternGenerator :=
  URLPatternGenerator.init [] none "\\d+" true true true

/-- The store after creating the module-level instance. -/
def easyurlStore : Store := easyurlInit.1

/-- The module-level instance easyurl. -/
def easyurl : URLPatternGenerator := easyurlInit.2

/-- The module-level alias regex = easyurl.regex. -/
def regexTop (url : String) (kw : Kw) : String :=
  (URLPatternGenerator.regexOp easyurlStore easyurl url kw).2

/-- Spec-side anchor step: prepend the anchor character iff anchoring is
enabled and the string does not already start with it. -/
def specAnchor (enabled : Bool) (r : List Char) : List Char :=
  if enabled && !(r.head? == some '^') then '^' :: r else r

/-- Spec-side separator step: append the separator iff the option is
enabled, the original template was non-empty, and the string ends in
neither the terminator nor the separator. -/
def specSep (enabled templateNonempty : Bool) (r : List Char) : List Char :=
  if enabled && templateNonempty &&
     !(r.getLast? == some '$') && !(r.getLast? == some '/')
  then r ++ ['/'] else r

/-- Spec-side terminator step: append the terminator iff terminating is
enabled and the string does not already end in it. -/
def specTerm (enabled : Bool) (r : List Char) : List Char :=
  if enabled && !(r.getLast? == some '$') then r ++ ['$'] else r

theorem length_dropWhile_le_char (p : Char → Bool) (l : List Char) :
    (l.dropWhile p).length ≤ l.length := by
  induction l with
  | nil => simp
  | cons a l ih =>
    rw [List.dropWhile_cons]
    split
    · exact Nat.le_trans ih (Nat.le_succ _)
    · simp

theorem tryAfterLt_shrinks (cs : List Char) (nm : String) (pat : Option String)
    (r : List Char) (h : tryAfterLt cs = some (nm, pat, r)) : r.length < cs.length := by
  unfold tryAfterLt at h
  split_ifs at h with h1
  split at h
  · cases h
  · rename_i a rest h2
    have hlen : (a :: rest).length ≤ cs.length := by
      rw [← h2]; exact length_dropWhile_le_char _ _
    split_ifs at h with h3
    · simp only [Option.some.injEq, Prod.mk.injEq] at h
      obtain ⟨-, -, h7⟩ := h
      subst h7
      simp only [List.length_cons] at hlen
      omega
    · split at h
      · cases h
      · rename_i b rest' h4
        simp only [Option.some.injEq, Prod.mk.injEq] at h
        obtain ⟨-, -, h7⟩ := h
        subst h7
        have hlen2 : (b :: rest').length ≤ (a :: rest).length := by
          rw [← h4]; exact length_dropWhile_le_char _ _
        simp only [List.length_cons] at hlen hlen2
        omega

theorem tryMatch_shrinks (l : List Char) (nm : String) (pat : Option String)
    (r : List Char) (h : tryMatch l = some (nm, pat, r)) : r.length < l.length := by
  cases l with
  | nil => cases h
  | cons c cs =>
    replace h : (if c = '<' then tryAfterLt cs else none) = some (nm, pat, r) := h
    split_ifs at h
    have := tryAfterLt_shrinks cs nm pat r h
    simp only [List.length_cons]
    omega

theorem stripColon_ne_nil (l : List Char) (h : l ≠ []) : stripColon l ≠ [] := by
  unfold stripColon
  split
  · simp
  · exact h

theorem stringMk_ne_empty (l : List Char) (h : l ≠ []) : String.mk l ≠ "" := by
  intro he
  apply h
  have hd : (String.mk l).data = ("" : String).data := by rw [he]
  simpa using hd

theorem tryMatch_pat_nonempty (l : List Char) (nm p : String) (r : List Char)
    (h : tryMatch l = some (nm, some p, r)) : p ≠ "" := by
  cases l with
  | nil => cases h
  | cons c cs =>
    replace h : (if c = '<' then tryAfterLt cs else none) = some (nm, some p, r) := h
    split_ifs at h
    unfold tryAfterLt at h
    split_ifs at h with h1
    split at h
    · cases h
    · rename_i a rest h2
      split_ifs at h with h3
      · simp only [Option.some.injEq, Prod.mk.injEq] at h
        exact absurd h.2.1.symm (by simp)
      · split at h
        · cases h
        · rename_i b rest' h4
          simp only [Option.some.injEq, Prod.mk.injEq] at h
          obtain ⟨-, h6, -⟩ := h
          have htw : (a :: rest).takeWhile (fun x => x != '>') =
              a :: rest.takeWhile (fun x => x != '>') := by
            rw [List.takeWhile_cons, if_pos (by simp [h3])]
          rw [← h6]
          apply stringMk_ne_empty
          apply stripColon_ne_nil
          rw [htw]
          simp

theorem substAux_nil (patterns : PatTable) (dflt : String) (fuel : Nat) :
    substAux patterns dflt fuel [] = [] := by
  cases fuel <;> rfl

theorem substList_nil (patterns : PatTable) (dflt : String) :
    substList patterns dflt [] = [] := by
  rw [substList]; exact substAux_nil _ _ _

theorem substAux_norm (patterns : PatTable) (dflt : String) :
    ∀ fuel l, l.length ≤ fuel →
      substAux patterns dflt fuel l = substList patterns dflt l := by
  intro fuel
  induction fuel using Nat.strong_induction_on with
  | _ fuel ih =>
    intro l hl
    cases l with
    | nil => rw [substAux_nil, substList_nil]
    | cons c rest =>
      cases fuel with
      | zero => simp at hl
      | succ f =>
        simp only [List.length_cons] at hl
        cases htm : tryMatch (c :: rest) with
        | some v =>
          obtain ⟨nm, pat, rest'⟩ := v
          have hs := tryMatch_shrinks (c :: rest) nm pat rest' htm
          simp only [List.length_cons] at hs
          have e1 : substAux patterns dflt (f + 1) (c :: rest) =
              (URLPatternGenerator._replace patterns dflt nm pat).toList ++
                substAux patterns dflt f rest' := by
            simp [substAux, htm]
          have e2 : substList patterns dflt (c :: rest) =
              (URLPatternGenerator._replace patterns dflt nm pat).toList ++
                substAux patterns dflt rest.length rest' := by
            rw [substList]
            simp only [List.length_cons]
            simp [substAux, htm]
          rw [e1, e2,
            ih f (by omega) rest' (by omega),
            ih rest.length (by omega) rest' (by omega)]
        | none =>
          have e1 : substAux patterns dflt (f + 1) (c :: rest) =
              c :: substAux patterns dflt f rest := by
            simp [substAux, htm]
          have e2 : substList patterns dflt (c :: rest) =
              c :: substAux patterns dflt rest.length rest := by
            rw [substList]
            simp only [List.length_cons]
            simp [substAux, htm]
          rw [e1, e2,
            ih f (by omega) rest (by omega),
            ih rest.length (by omega) rest (by omega)]

theorem substList_token (patterns : PatTable) (dflt : String) (l : List Char)
    (nm : String) (pat : Option String) (rest : List Char)
    (h : tryMatch l = some (nm, pat, rest)) :
    substList patterns dflt l =
      (URLPatternGenerator._replace patterns dflt nm pat).toList ++
        substList patterns dflt rest := by
  cases l with
  | nil => cases h
  | cons c cs =>
    have hs := tryMatch_shrinks (c :: cs) nm pat rest h
    simp only [List.length_cons] at hs
    have e : substAux patterns dflt (cs.length + 1) (c :: cs) =
        (URLPatternGenerator._replace patterns dflt nm pat).toList ++
          substAux patterns dflt cs.length rest := by
      simp [substAux, h]
    rw [substList]
    simp only [List.length_cons]
    rw [e, substAux_norm patterns dflt cs.length rest (by omega)]

theorem substList_skip (patterns : PatTable) (dflt : String) (c : Char)
    (rest : List Char) (h : tryMatch (c :: rest) = none) :
    substList patterns dflt (c :: rest) = c :: substList patterns dflt rest := by
  have e : substAux patterns dflt (rest.length + 1) (c :: rest) =
      c :: substAux patterns dflt rest.length rest := by
    simp [substAux, h]
  rw [substList]
  simp only [List.length_cons]
  rw [e, substAux_norm patterns dflt rest.length rest (Nat.le_refl _)]

theorem substList_id_of_no_token (patterns : PatTable) (dflt : String)
    (l : List Char) (h : hasToken l = false) : substList patterns dflt l = l := by
  induction l with
  | nil => exact substList_nil _ _
  | cons c rest ih =>
    cases htm : tryMatch (c :: rest) with
    | some v =>
      rw [hasToken, htm] at h
      cases h
    | none =>
      rw [hasToken, htm] at h
      rw [substList_skip _ _ _ _ htm, ih h]

theorem take1_beq (r : List Char) (d : Char) :
    (r.take 1 == [d]) = (r.head? == some d) := by
  cases r <;> simp [List.take]

theorem lastSlice_eq (r : List Char) : lastSlice r = r.getLast?.toList := by
  induction r with
  | nil => rfl
  | cons c cs ih =>
    cases cs with
    | nil => rfl
    | cons b bs =>
      rw [List.getLast?_cons_cons, ← ih]
      simp only [lastSlice, List.length_cons]
      rw [Nat.add_sub_cancel, Nat.add_sub_cancel, List.drop_succ_cons]

theorem lastSlice_beq (r : List Char) (d : Char) :
    (lastSlice r == [d]) = (r.getLast? == some d) := by
  rw [lastSlice_eq]
  cases r.getLast? <;> simp [Option.toList]

theorem regexCore_spec (patterns : PatTable) (dflt : String)
    (a asl te : Bool) (url : String) (kw : Kw) :
    URLPatternGenerator.regexCore patterns dflt a asl te url kw =
      String.mk (specTerm (kw.terminate.getD te)
        (specSep (kw.append_slash.getD asl) (url != "")
          (specAnchor (kw.anchor.getD a) (substList patterns dflt url.toList)))) := by
  simp only [URLPatternGenerator.regexCore, specAnchor, specSep, specTerm,
    take1_beq, lastSlice_beq]
  rw [Bool.and_comm (url != "") (kw.append_slash.getD asl)]

theorem store_read_write_ne (s : Store) (i j : Nat) (t : PatTable) (h : i ≠ j) :
    Store.read (Store.write s i t) j = Store.read s j := by
  induction s generalizing i j with
  | nil => simp [Store.write, Store.read]
  | cons hd tl ih =>
    cases i with
    | zero =>
      cases j with
      | zero => exact absurd rfl h
      | succ j' => simp [Store.write, Store.read, List.getD]
    | succ i' =>
      cases j with
      | zero => simp [Store.write, Store.read, List.getD]
      | succ j' =>
        have := ih i' j' (by omega)
        simpa [Store.write, Store.read, List.getD] using this

theorem store_read_append_self (s : Store) (t : PatTable) :
    Store.read (s ++ [t]) s.length = t := by
  induction s with
  | nil => rfl
  | cons hd tl ih => simp [Store.read, List.getD] at ih ⊢

theorem sanity_article :
    regexTop "article/<id>/edit" kw0 = "^article/(?P<id>\\d+)/edit/$" := by decide

theorem sanity_month_mon :
    regexTop "<month:mon>" kw0 = "^(?P<month>[a-z]\x7b3\x7d)/$" := by decide

theorem sanity_disabled :
    regexTop "foo" ⟨some false, some false, some false, none⟩ = "foo" := by decide

theorem sanity_dollar : regexTop "foo$" kw0 = "^foo$" := by decide

theorem sanity_slash : regexTop "foo/" kw0 = "^foo/$" := by decide

theorem sanity_zip :
    regexTop "zip/<zip_code:\\d\x7b5\x7d>" kw0 = "^zip/(?P<zip_code>\\d\x7b5\x7d)/$" := by
  decide

/-- Claim C1: every token recognised during an expansion call is
replaced by a named capture group binding the token name to the chosen
fragment: with a pattern portion present, the Pattern Table entry for
the pattern when one exists and otherwise the pattern text itself; with
no pattern portion, the table entry for the name when one exists and
otherwise the configured default fragment.  The choice is total, so no
lookup ever fails. -/
theorem c1_token_substitution (patterns : PatTable) (dflt nm : String)
    (pat : Option String) (l rest : List Char)
    (h : tryMatch l = some (nm, pat, rest)) :
    substList patterns dflt l =
      (URLPatternGenerator._replace patterns dflt nm pat).toList ++
        substList patterns dflt rest ∧
    URLPatternGenerator._replace patterns dflt nm pat =
      "(?P<" ++ nm ++ ">" ++
        (match pat with
         | some p =>
             match dictFind patterns p with
             | some frag => frag
             | none => p
         | none =>
             match dictFind patterns nm with
             | some frag => frag
             | none => dflt) ++ ")" := by
  constructor
  · exact substList_token patterns dflt l nm pat rest h
  · cases pat with
    | none =>
      cases hf : dictFind patterns nm <;>
        simp [URLPatternGenerator._replace, dictGet, hf]
    | some p =>
      have hp := tryMatch_pat_nonempty l nm p rest h
      cases hf : dictFind patterns p <;>
        simp [URLPatternGenerator._replace, dictGet, hp, hf]

/-- Witness for c1_token_substitution at the concrete template <id>x. -/
theorem c1_token_substitution_witness :
    substList PATTERNS "\\d+" (String.toList "<id>x") =
      (URLPatternGenerator._replace PATTERNS "\\d+" "id" none).toList ++
        substList PATTERNS "\\d+" (String.toList "x") ∧
    URLPatternGenerator._replace PATTERNS "\\d+" "id" none =
      "(?P<" ++ "id" ++ ">" ++
        (match (none : Option String) with
         | some p =>
             match dictFind PATTERNS p with
             | some frag => frag
             | none => p
         | none =>
             match dictFind PATTERNS "id" with
             | some frag => frag
             | none => "\\d+") ++ ")" :=
  c1_token_substitution PATTERNS "\\d+" "id" none (String.toList "<id>x")
    (String.toList "x") (by decide)

/-- Claim C2: after substitution the result is post-processed in this
order: the caret is prepended iff anchoring is enabled and the string
does not already start with a caret; the slash is appended iff the
separator option is enabled, the original template was non-empty, and
the string ends in neither dollar nor slash; the dollar is appended iff
terminating is enabled and the string does not already end in a dollar. -/
theorem c2_postprocessing (patterns : PatTable) (dflt : String)
    (a asl te : Bool) (url : String) (kw : Kw) :
    URLPatternGenerator.regexCore patterns dflt a asl te url kw =
      String.mk (specTerm (kw.terminate.getD te)
        (specSep (kw.append_slash.getD asl) (url != "")
          (specAnchor (kw.anchor.getD a) (substList patterns dflt url.toList)))) :=
  regexCore_spec patterns dflt a asl te url kw

/-- Claim C6: a template without tokens passes through verbatim: the
substitution pass returns it unchanged, and regex returns exactly the
template with only the anchor, separator and terminator steps applied. -/
theorem c6_no_tokens (patterns : PatTable) (dflt : String) (a asl te : Bool)
    (kw : Kw) (url : String) (h : hasToken url.toList = false) :
    substList patterns dflt url.toList = url.toList ∧
    URLPatternGenerator.regexCore patterns dflt a asl te url kw =
      String.mk (specTerm (kw.terminate.getD te)
        (specSep (kw.append_slash.getD asl) (url != "")
          (specAnchor (kw.anchor.getD a) url.toList))) := by
  have hid := substList_id_of_no_token patterns dflt url.toList h
  exact ⟨hid, by rw [regexCore_spec, hid]⟩

/-- Witness for c6_no_tokens at the token-free template archive. -/
theorem c6_no_tokens_witness :
    substList PATTERNS "\\d+" (String.toList "archive") = String.toList "archive" ∧
    URLPatternGenerator.regexCore PATTERNS "\\d+" true true true "archive" kw0 =
      String.mk (specTerm (kw0.terminate.getD true)
        (specSep (kw0.append_slash.getD true) ("archive" != "")
          (specAnchor (kw0.anchor.getD true) (String.toList "archive")))) :=
  c6_no_tokens PATTERNS "\\d+" true true true kw0 "archive" (by decide)

/-- Claim C7: regex mutates nothing: the store comes back unchanged, a
second identical call after the first returns the same output, and the
output depends only on the referenced table together with the
configuration and arguments. -/
theorem c7_purity (s : Store) (g : URLPatternGenerator) (url : String) (kw : Kw) :
    (URLPatternGenerator.regexOp s g url kw).1 = s ∧
    (URLPatternGenerator.regexOp (URLPatternGenerator.regexOp s g url kw).1
        g url kw).2 =
      (URLPatternGenerator.regexOp s g url kw).2 ∧
    ∀ s' : Store, Store.read s' g.patternsRef = Store.read s g.patternsRef →
      (URLPatternGenerator.regexOp s' g url kw).2 =
        (URLPatternGenerator.regexOp s g url kw).2 := by
  refine ⟨rfl, rfl, ?_⟩
  intro s' hs
  simp [URLPatternGenerator.regexOp, hs]

/-- Witness for c7_purity: two stores agreeing on the referenced cell
give the same expansion. -/
theorem c7_purity_witness :
    (URLPatternGenerator.regexOp [PATTERNS, []] easyurl "x" kw0).2 =
      (URLPatternGenerator.regexOp [PATTERNS] easyurl "x" kw0).2 :=
  (c7_purity [PATTERNS] easyurl "x" kw0).2.2 [PATTERNS, []] (by decide)

/-- Claim C8: expansion never fails: for every store, configuration,
template and keyword arguments the operation returns a result string
and leaves the store unchanged; unknown names and arbitrary (even
malformed) table fragments are covered because the quantification over
the table and template is unrestricted and each lookup is a total
defaulted one. -/
theorem c8_no_failure (s : Store) (g : URLPatternGenerator) (url : String)
    (kw : Kw) :
    ∃ out : String, URLPatternGenerator.regexOp s g url kw = (s, out) :=
  ⟨URLPatternGenerator.regexCore (Store.read s g.patternsRef) g.default
      g.anchor g.append_slash g.terminate url kw, rfl⟩

/-- Claim C9: expanding the empty template under the default
configuration yields exactly caret-dollar: anchor and terminator are
applied while the separator step is skipped because the template is
empty. -/
theorem c9_empty_template : regexTop "" kw0 = "^$" := by decide

/-- Claim C3 counterexample: the claim says a group in which the text
after the name does not begin with a colon is never substituted as a
token, but the colon in the VARIABLE regex is optional (a
colon-question), so the group LANGLE a-b RANGLE is recognised with name
a and pattern -b and is substituted. -/
theorem c3_counterexample :
    tryMatch (String.toList "<a-b>") = some ("a", some "-b", []) ∧
    regexTop "<a-b>" kw0 = "^(?P<a>-b)/$" ∧
    regexTop "<a-b>" kw0 ≠ "^<a-b>/$" := by decide

/-- Claim C3 as amended: a token is a LANGLE, a non-empty run of word
characters (the name), then either a RANGLE immediately, or a non-empty
run of non-RANGLE characters (the pattern portion, from which one
leading colon is stripped when more follows) and a RANGLE.  The colon is
optional: a group whose text after the name does not begin with a colon
is still substituted, with that text as the pattern. -/
theorem c3_amended (nm pat rest : List Char)
    (hne : nm ≠ []) (hw : ∀ c ∈ nm, isWordChar c = true)
    (hp : pat ≠ []) (hgt : ∀ c ∈ pat, ¬ c = '>') :
    tryMatch ('<' :: (nm ++ '>' :: rest)) = some (String.mk nm, none, rest) ∧
    tryMatch ('<' :: (nm ++ ':' :: (pat ++ '>' :: rest))) =
      some (String.mk nm, some (String.mk pat), rest) ∧
    ((∀ c, pat.head? = some c → isWordChar c = false ∧ ¬ c = ':') →
      tryMatch ('<' :: (nm ++ (pat ++ '>' :: rest))) =
        some (String.mk nm, some (String.mk pat), rest)) := by
  obtain ⟨p, ps, rfl⟩ : ∃ p ps, pat = p :: ps := by
    cases pat with
    | nil => exact absurd rfl hp
    | cons p ps => exact ⟨p, ps, rfl⟩
  have hpgt : ∀ c ∈ p :: ps, (fun x => x != '>') c = true := by
    intro c hc
    simpa using hgt c hc
  refine ⟨?_, ?_, ?_⟩
  · have e1 : (nm ++ '>' :: rest).takeWhile isWordChar = nm := by
      rw [List.takeWhile_append_of_pos hw, List.takeWhile_cons, if_neg (by decide)]
      simp
    have e2 : (nm ++ '>' :: rest).dropWhile isWordChar = '>' :: rest := by
      rw [List.dropWhile_append_of_pos hw, List.dropWhile_cons, if_neg (by decide)]
    simp [tryMatch, tryAfterLt, e1, e2, hne]
  · have e1 : (nm ++ ':' :: (p :: ps ++ '>' :: rest)).takeWhile isWordChar = nm := by
      rw [List.takeWhile_append_of_pos hw, List.takeWhile_cons, if_neg (by decide)]
      simp
    have e2 : (nm ++ ':' :: (p :: ps ++ '>' :: rest)).dropWhile isWordChar =
        ':' :: (p :: ps ++ '>' :: rest) := by
      rw [List.dropWhile_append_of_pos hw, List.dropWhile_cons, if_neg (by decide)]
    have e3 : (':' :: (p :: ps ++ '>' :: rest)).dropWhile (fun x => x != '>') =
        '>' :: rest := by
      rw [List.dropWhile_cons, if_pos (by decide), List.dropWhile_append_of_pos hpgt,
        List.dropWhile_cons, if_neg (by decide)]
    have e4 : (':' :: (p :: ps ++ '>' :: rest)).takeWhile (fun x => x != '>') =
        ':' :: (p :: ps) := by
      rw [List.takeWhile_cons, if_pos (by decide), List.takeWhile_append_of_pos hpgt,
        List.takeWhile_cons, if_neg (by decide)]
      simp
    simp only [List.cons_append, List.append_assoc] at e1 e2 e3 e4 ⊢
    simp [tryMatch, tryAfterLt, e1, e2, e3, e4, hne, stripColon]
  · intro hhead
    obtain ⟨hw0, hc0⟩ := hhead p rfl
    have e1 : (nm ++ (p :: ps ++ '>' :: rest)).takeWhile isWordChar = nm := by
      rw [List.takeWhile_append_of_pos hw, List.cons_append, List.takeWhile_cons,
        if_neg (by simp [hw0])]
      simp
    have e2 : (nm ++ (p :: ps ++ '>' :: rest)).dropWhile isWordChar =
        p :: ps ++ '>' :: rest := by
      rw [List.dropWhile_append_of_pos hw, List.cons_append, List.dropWhile_cons,
        if_neg (by simp [hw0])]
    have e3 : ((p :: ps) ++ '>' :: rest).dropWhile (fun x => x != '>') = '>' :: rest := by
      rw [List.dropWhile_append_of_pos hpgt, List.dropWhile_cons, if_neg (by decide)]
    have e4 : ((p :: ps) ++ '>' :: rest).takeWhile (fun x => x != '>') = p :: ps := by
      rw [List.takeWhile_append_of_pos hpgt, List.takeWhile_cons, if_neg (by decide)]
      simp
    have hstrip : stripColon (p :: ps) = p :: ps := by
      unfold stripColon
      split
      · rename_i c cs heq
        injection heq with h1 h2
        exact absurd h1 hc0
      · rfl
    have hgtp : ¬ p = '>' := hgt p (by simp)
    simp only [List.cons_append, List.append_assoc] at e1 e2 e3 e4 ⊢
    simp [tryMatch, tryAfterLt, e1, e2, e3, e4, hne, hstrip, hgtp]

/-- Witness for c3_amended: the colon-free group LANGLE a-b RANGLE is
recognised as a token with name a and pattern -b. -/
theorem c3_amended_witness :
    tryMatch ('<' :: (['a'] ++ (['-', 'b'] ++ '>' :: []))) =
      some (String.mk ['a'], some (String.mk ['-', 'b']), []) :=
  (c3_amended ['a'] ['-', 'b'] [] (by decide) (by decide) (by decide)
    (by decide)).2.2 (by decide)

/-- Claim C4 counterexample: the claim says all four settings, including
the default fragment, can be overridden per call; but regex never reads
a call-supplied default, so a token whose name is absent from the table
still uses the instance default rather than the call-supplied one. -/
theorem c4_counterexample :
    regexTop "releases/<project_id>" ⟨none, none, none, some "[a-z]+"⟩ =
      "^releases/(?P<project_id>\\d+)/$" ∧
    regexTop "releases/<project_id>" ⟨none, none, none, some "[a-z]+"⟩ ≠
      "^releases/(?P<project_id>[a-z]+)/$" := by decide

/-- Claim C4 as amended: the three boolean settings anchor, terminate
and append-slash can each be overridden per call, option by option, the
call-time value taking precedence over the instance value; the default
fragment cannot be overridden per call: a call-supplied default is
ignored and the instance default is always the one used. -/
theorem c4_amended (patterns : PatTable) (dflt : String) (a asl te : Bool)
    (url : String) (kw : Kw) :
    URLPatternGenerator.regexCore patterns dflt a asl te url kw =
      URLPatternGenerator.regexCore patterns dflt (kw.anchor.getD a)
        (kw.append_slash.getD asl) (kw.terminate.getD te) url kw0 ∧
    ∀ d' : String,
      URLPatternGenerator.regexCore patterns dflt a asl te url
        ⟨kw.anchor, kw.append_slash, kw.terminate, some d'⟩ =
      URLPatternGenerator.regexCore patterns dflt a asl te url kw := by
  refine ⟨rfl, ?_⟩
  intro d'
  rfl

/-- Claim C5 counterexample: two instances constructed without an
explicit table do not share one dict object: adding the entry foo maps
to X through the first instance is invisible when the second instance
expands LANGLE foo RANGLE, which still uses the built-in default. -/
theorem c5_counterexample :
    (URLPatternGenerator.regexOp
       (URLPatternGenerator.add
          (URLPatternGenerator.init
             (URLPatternGenerator.init [] none "\\d+" true true true).1
             none "\\d+" true true true).1
          (URLPatternGenerator.init [] none "\\d+" true true true).2
          "foo" "X")
       (URLPatternGenerator.init
          (URLPatternGenerator.init [] none "\\d+" true true true).1
          none "\\d+" true true true).2
       "<foo>" kw0).2 = "^(?P<foo>\\d+)/$" ∧
    (URLPatternGenerator.regexOp
       (URLPatternGenerator.add
          (URLPatternGenerator.init
             (URLPatternGenerator.init [] none "\\d+" true true true).1
             none "\\d+" true true true).1
          (URLPatternGenerator.init [] none "\\d+" true true true).2
          "foo" "X")
       (URLPatternGenerator.init
          (URLPatternGenerator.init [] none "\\d+" true true true).1
          none "\\d+" true true true).2
       "<foo>" kw0).2 ≠ "^(?P<foo>X)/$" := by decide

/-- Claim C5 as amended: the constructor allocates a fresh copy of
PATTERNS for every instance built without a truthy patterns argument, so
two such instances reference distinct cells and an add through the first
never changes what the second expands. -/
theorem c5_amended (s : Store) (d1 d2 : String) (b1 b2 b3 e1 e2 e3 : Bool) :
    ((URLPatternGenerator.init s none d1 b1 b2 b3).2).patternsRef ≠
      ((URLPatternGenerator.init (URLPatternGenerator.init s none d1 b1 b2 b3).1
          none d2 e1 e2 e3).2).patternsRef ∧
    ∀ (nm f url : String) (kw : Kw),
      (URLPatternGenerator.regexOp
         (URLPatternGenerator.add
            (URLPatternGenerator.init (URLPatternGenerator.init s none d1 b1 b2 b3).1
               none d2 e1 e2 e3).1
            (URLPatternGenerator.init s none d1 b1 b2 b3).2 nm f)
         (URLPatternGenerator.init (URLPatternGenerator.init s none d1 b1 b2 b3).1
            none d2 e1 e2 e3).2
         url kw).2 =
      (URLPatternGenerator.regexOp
         (URLPatternGenerator.init (URLPatternGenerator.init s none d1 b1 b2 b3).1
            none d2 e1 e2 e3).1
         (URLPatternGenerator.init (URLPatternGenerator.init s none d1 b1 b2 b3).1
            none d2 e1 e2 e3).2
         url kw).2 := by
  have hlen : s.length ≠ (s ++ [PATTERNS]).length := by
    simp [List.length_append]
  constructor
  · exact hlen
  · intro nm f url kw
    simp only [URLPatternGenerator.regexOp, URLPatternGenerator.add,
      URLPatternGenerator.init]
    rw [store_read_write_ne _ _ _ _ hlen]

/-- Claim C10: a constructor call whose patterns argument reads as an
empty dict discards the supplied mapping and installs a freshly
allocated cell holding a copy of the built-in PATTERNS table, while a
non-empty caller-supplied mapping is installed itself (by reference) as
the instance table. -/
theorem c10_empty_patterns_replaced (s : Store) (r : Nat) (dflt : String)
    (asl an te : Bool) :
    (Store.read s r = [] →
       URLPatternGenerator.init s (some r) dflt asl an te =
         (s ++ [PATTERNS], ⟨s.length, dflt, asl, an, te⟩) ∧
       Store.read (s ++ [PATTERNS]) s.length = PATTERNS) ∧
    (Store.read s r ≠ [] →
       URLPatternGenerator.init s (some r) dflt asl an te =
         (s, ⟨r, dflt, asl, an, te⟩)) := by
  constructor
  · intro h
    exact ⟨by simp [URLPatternGenerator.init, h], store_read_append_self s PATTERNS⟩
  · intro h
    simp [URLPatternGenerator.init, h]

/-- Witness for c10_empty_patterns_replaced: constructing against a
store whose cell 0 is an empty dict allocates a fresh PATTERNS copy at
cell 1. -/
theorem c10_empty_patterns_replaced_witness :
    URLPatternGenerator.init [[]] (some 0) "\\d+" true true true =
      ([[]] ++ [PATTERNS], ⟨1, "\\d+", true, true, true⟩) ∧
    Store.read ([[]] ++ [PATTERNS]) 1 = PATTERNS :=
  (c10_empty_patterns_replaced [[]] 0 "\\d+" true true true).1 (by decide)
